import Mathlib

/-!
Verification development for the Feishu channel adapter's streaming reply
coordinator (`src/reply-dispatcher.ts`) and its remote send layer
(`send.ts`).  The TypeScript classes and functions are shallowly embedded
as pure Lean functions over an explicit state record; remote API calls are
recorded in a trace and their outcomes are supplied by an environment
`Env : Nat → RemoteResult` indexed by the session's running count of
remote calls.  Time is threaded as an explicit `now : Int` argument per
operation (every `Date.now()` occurrence inside one operation reads that
argument; no claim here depends on time advancing inside a single
operation).  Retry delays (`setTimeout`) are recorded as `sleep` trace
events.
-/

namespace Feishu

/-- Constant `MAX_RETRY_COUNT` from reply-dispatcher.ts. -/
def MAX_RETRY_COUNT : Nat := 3

/-- Constant `RATE_LIMIT_ERROR_CODE` from reply-dispatcher.ts. -/
def RATE_LIMIT_ERROR_CODE : String := "230020"

/-- Constant `STREAMING_RATE_LIMIT_ERROR_CODE` from reply-dispatcher.ts. -/
def STREAMING_RATE_LIMIT_ERROR_CODE : String := "99991400"

/-- Constant `BASE_RETRY_DELAY_MS` from reply-dispatcher.ts. -/
def BASE_RETRY_DELAY_MS : Nat := 1000

/-- Constant `MIN_UPDATE_INTERVAL_MS` from reply-dispatcher.ts. -/
def MIN_UPDATE_INTERVAL_MS : Nat := 300

/-- Constant `RATE_LIMIT_BACKOFF_MULTIPLIER` from reply-dispatcher.ts. -/
def RATE_LIMIT_BACKOFF_MULTIPLIER : Nat := 2

/-- `charsStartWith pat l` holds when `pat` is an initial segment of `l`. -/
def charsStartWith : List Char → List Char → Bool
  | [], _ => true
  | _ :: _, [] => false
  | a :: as, b :: bs => a == b && charsStartWith as bs

/-- `charsInclude pat l`: `pat` occurs contiguously somewhere in `l`. -/
def charsInclude (pat : List Char) : List Char → Bool
  | [] => charsStartWith pat []
  | b :: bs => charsStartWith pat (b :: bs) || charsInclude pat bs

/-- JavaScript `s.includes(pat)` on strings. -/
def strIncludes (s pat : String) : Bool :=
  charsInclude pat.toList s.toList

/-- The rate-limit classifier used identically in `performUpdate` and
`finalize`:
`errStr.includes(RATE_LIMIT_ERROR_CODE) || errStr.includes(STREAMING_RATE_LIMIT_ERROR_CODE)`. -/
def isRateLimitError (errStr : String) : Bool :=
  strIncludes errStr RATE_LIMIT_ERROR_CODE ||
    strIncludes errStr STREAMING_RATE_LIMIT_ERROR_CODE

/-- A remote API call made by the streaming session, with the arguments the
session passes to the send layer.  `updateSettings` records the sequence
number that `updateCardSettings` (send.ts) attaches to the request. -/
inductive RemoteCall where
  /-- `createCardEntity({content, streaming})`. -/
  | createCard (content : String) (streaming : Bool)
  /-- `sendCardMessage({cardId, ...})`. -/
  | sendCardMsg (cardId : String)
  /-- `updateCardContent({cardId, content, sequence, streaming})`. -/
  | updateContent (cardId : String) (content : String) (sequence : Nat) (streaming : Bool)
  /-- `client.cardkit.v1.card.settings(...)` issued by `updateCardSettings`. -/
  | updateSettings (cardId : String) (streamingMode : Bool) (sequence : Nat)
deriving DecidableEq, Repr

/-- `updateCardSettings({cfg, cardId, streamingMode})` in send.ts sends the
settings request with `sequence: 1` hardcoded in its body. -/
def updateCardSettingsCall (cardId : String) (streamingMode : Bool) : RemoteCall :=
  RemoteCall.updateSettings cardId streamingMode 1

/-- An observable event of a session run: a remote call, or a retry-backoff
sleep (`setTimeout`) of the given number of milliseconds. -/
inductive TraceEvent where
  | call (c : RemoteCall)
  | sleep (ms : Nat)
deriving DecidableEq, Repr

/-- Outcome of one remote call, decided by the environment.  `ok id`
carries the payload used by `createCardEntity` (the card id) and
`sendCardMessage` (the message id); content/settings updates ignore it.
`err msg` is the thrown error, stringified. -/
inductive RemoteResult where
  | ok (id : String)
  | err (msg : String)
deriving DecidableEq, Repr

/-- The environment answering the session's remote calls, indexed by the
number of remote calls the session has made so far. -/
def Env : Type := Nat → RemoteResult

/-- The mutable private fields of class `FeishuStream`
(reply-dispatcher.ts), plus the bookkeeping needed by the embedding: the
count of remote calls made (`callsMade`, indexing the environment) and the
event trace.  `initializationPromise` is always null at operation
boundaries in the sequential model; the concurrency model below
(`ConcState`) represents it explicitly. -/
structure StreamState where
  cardId : Option String
  messageId : Option String
  lastContent : String
  lastUpdateTime : Int
  isFinalized : Bool
  hasInitializationError : Bool
  loggedInitialization : Bool
  currentMinInterval : Nat
  maxUpdateInterval : Nat
  rateLimitBackoffMultiplier : Nat
  rateLimitHitCount : Nat
  sequence : Nat
  callsMade : Nat
  trace : List TraceEvent
deriving DecidableEq, Repr

/-- The `FeishuStream` constructor: field initializers plus the three
positional parameters `minUpdateIntervalMs` (default
`MIN_UPDATE_INTERVAL_MS`), `maxUpdateIntervalMs` (default 5000) and
`rateLimitBackoffMult` (default 2). -/
def initialStream (minUpdateIntervalMs maxUpdateIntervalMs rateLimitBackoffMult : Nat) :
    StreamState where
  cardId := none
  messageId := none
  lastContent := ""
  lastUpdateTime := 0
  isFinalized := false
  hasInitializationError := false
  loggedInitialization := false
  currentMinInterval := minUpdateIntervalMs
  maxUpdateInterval := maxUpdateIntervalMs
  rateLimitBackoffMultiplier := rateLimitBackoffMult
  rateLimitHitCount := 0
  sequence := 0
  callsMade := 0
  trace := []

/-- The initialization block inside `FeishuStream.update` (the async IIFE
stored in `initializationPromise`): create the card entity with the
current content and streaming enabled, then send the chat message bound to
the card id; a failure of either step sets `hasInitializationError`.  On
success it records `messageId`, `lastContent` and `lastUpdateTime`. -/
def runInitialization (env : Env) (now : Int) (content : String) (s : StreamState) :
    StreamState :=
  let res1 := env s.callsMade
  let s1 : StreamState :=
    { s with callsMade := s.callsMade + 1
             trace := s.trace ++ [TraceEvent.call (RemoteCall.createCard content true)] }
  match res1 with
  | RemoteResult.err _ => { s1 with hasInitializationError := true }
  | RemoteResult.ok cid =>
    let s2 : StreamState := { s1 with cardId := some cid }
    let res2 := env s2.callsMade
    let s3 : StreamState :=
      { s2 with callsMade := s2.callsMade + 1
                trace := s2.trace ++ [TraceEvent.call (RemoteCall.sendCardMsg cid)] }
    match res2 with
    | RemoteResult.err _ => { s3 with hasInitializationError := true }
    | RemoteResult.ok mid =>
      { s3 with messageId := some mid
                lastContent := content
                lastUpdateTime := now
                loggedInitialization := true }

/-- `FeishuStream.performUpdate(content, retryCount)`, with an explicit
structural fuel for the bounded retry recursion.  The fuel is pure
termination scaffolding: the retry guard is the source's
`isRateLimit && retryCount < MAX_RETRY_COUNT`, whose chain length from any
`retryCount` is at most `MAX_RETRY_COUNT + 1`, so with the fuel
`performUpdate` supplies the `0` branch is unreachable
(`performUpdateGo_fuel_irrelevant` below makes the fuel irrelevance
precise). -/
def performUpdateGo (env : Env) (now : Int) (content : String) :
    Nat → StreamState → Nat → StreamState × Bool
  | 0, s, _ => (s, false)
  | fuel + 1, s, retryCount =>
    match s.cardId with
    | none => (s, false)
    | some cid =>
      if s.isFinalized then (s, false)
      else
        let res := env s.callsMade
        let s1 : StreamState :=
          { s with sequence := s.sequence + 1
                   callsMade := s.callsMade + 1
                   trace := s.trace ++
                     [TraceEvent.call
                       (RemoteCall.updateContent cid content (s.sequence + 1) true)] }
        match res with
        | RemoteResult.ok _ =>
          let s2 : StreamState := { s1 with lastContent := content, lastUpdateTime := now }
          let s3 : StreamState :=
            if s2.currentMinInterval >
                s2.currentMinInterval - (s2.currentMinInterval - MIN_UPDATE_INTERVAL_MS) then
              { s2 with currentMinInterval := MIN_UPDATE_INTERVAL_MS, rateLimitHitCount := 0 }
            else s2
          (s3, true)
        | RemoteResult.err msg =>
          let isRL := isRateLimitError msg
          let s2 : StreamState :=
            if isRL then
              { s1 with rateLimitHitCount := s1.rateLimitHitCount + 1
                        currentMinInterval :=
                          min (s1.currentMinInterval * s1.rateLimitBackoffMultiplier)
                            s1.maxUpdateInterval }
            else s1
          if isRL && retryCount < MAX_RETRY_COUNT then
            let s3 : StreamState :=
              { s2 with trace := s2.trace ++
                  [TraceEvent.sleep (BASE_RETRY_DELAY_MS * 2 ^ retryCount)] }
            performUpdateGo env now content fuel s3 (retryCount + 1)
          else (s2, false)

/-- `FeishuStream.performUpdate(content, retryCount = 0)`. -/
def performUpdate (env : Env) (now : Int) (content : String) (s : StreamState)
    (retryCount : Nat) : StreamState × Bool :=
  performUpdateGo env now content (MAX_RETRY_COUNT + 1) s retryCount

/-- `FeishuStream.update(content, isFinal = false)` in the sequential model
(`initializationPromise` is null whenever `update` is entered; concurrent
entry is modelled separately by `updateStart`). -/
def update (env : Env) (now : Int) (content : String) (isFinal : Bool)
    (s : StreamState) : StreamState :=
  if s.isFinalized then s
  else if content = s.lastContent then s
  else
    let s' := if s.cardId.isNone then runInitialization env now content s else s
    if !isFinal && now - s'.lastUpdateTime < (s'.currentMinInterval : Int) then s'
    else (performUpdate env now content s' 0).1

/-- `FeishuStream.finalize(content, retryCount)`, fuelled like
`performUpdateGo`.  Step 1 updates the card content with streaming off and
a fresh sequence number; step 2 calls `updateCardSettings`, which attaches
its hardcoded `sequence: 1` (see `updateCardSettingsCall`).  The shared
catch block retries the whole operation on a rate-limited error, touching
no other field. -/
def finalizeGo (env : Env) (content : String) :
    Nat → StreamState → Nat → StreamState × Bool
  | 0, s, _ => (s, false)
  | fuel + 1, s, retryCount =>
    if s.isFinalized then (s, true)
    else
      match s.cardId with
      | none => (s, false)
      | some cid =>
        let res1 := env s.callsMade
        let s1 : StreamState :=
          { s with sequence := s.sequence + 1
                   callsMade := s.callsMade + 1
                   trace := s.trace ++
                     [TraceEvent.call
                       (RemoteCall.updateContent cid content (s.sequence + 1) false)] }
        match res1 with
        | RemoteResult.err msg =>
          if isRateLimitError msg && retryCount < MAX_RETRY_COUNT then
            finalizeGo env content fuel
              { s1 with trace := s1.trace ++
                  [TraceEvent.sleep (BASE_RETRY_DELAY_MS * 2 ^ retryCount)] }
              (retryCount + 1)
          else (s1, false)
        | RemoteResult.ok _ =>
          let res2 := env s1.callsMade
          let s2 : StreamState :=
            { s1 with callsMade := s1.callsMade + 1
                      trace := s1.trace ++
                        [TraceEvent.call (updateCardSettingsCall cid false)] }
          match res2 with
          | RemoteResult.err msg =>
            if isRateLimitError msg && retryCount < MAX_RETRY_COUNT then
              finalizeGo env content fuel
                { s2 with trace := s2.trace ++
                    [TraceEvent.sleep (BASE_RETRY_DELAY_MS * 2 ^ retryCount)] }
                (retryCount + 1)
            else (s2, false)
          | RemoteResult.ok _ => ({ s2 with isFinalized := true }, true)

/-- `FeishuStream.finalize(content, retryCount = 0)`. -/
def finalize (env : Env) (content : String) (s : StreamState)
    (retryCount : Nat) : StreamState × Bool :=
  finalizeGo env content (MAX_RETRY_COUNT + 1) s retryCount

/-- `FeishuStream.hasFailed()`. -/
def hasFailed (s : StreamState) : Bool := s.hasInitializationError

/-- A call the coordinator may make on one session. -/
inductive SessionOp where
  | upd (now : Int) (content : String) (isFinal : Bool)
  | fin (content : String)
deriving Repr

/-- Run a list of `update`/`finalize` calls on a session. -/
def runOps (env : Env) (s : StreamState) : List SessionOp → StreamState
  | [] => s
  | SessionOp.upd now c f :: rest => runOps env (update env now c f s) rest
  | SessionOp.fin c :: rest => runOps env (finalize env c s 0).1 rest

/-- Sequence numbers of the content updates in a trace, in emission order. -/
def contentSeqs (tr : List TraceEvent) : List Nat :=
  tr.filterMap fun e =>
    match e with
    | TraceEvent.call (RemoteCall.updateContent _ _ n _) => some n
    | _ => none

/-- Sequence numbers of all content and settings mutations in a trace, in
emission order. -/
def mutationSeqs (tr : List TraceEvent) : List Nat :=
  tr.filterMap fun e =>
    match e with
    | TraceEvent.call (RemoteCall.updateContent _ _ n _) => some n
    | TraceEvent.call (RemoteCall.updateSettings _ _ n) => some n
    | _ => none

/-- Backoff sleeps of a trace, in order. -/
def sleepsOf (tr : List TraceEvent) : List Nat :=
  tr.filterMap fun e =>
    match e with
    | TraceEvent.sleep n => some n
    | _ => none

/-- Number of `createCardEntity` calls in a trace. -/
def createCalls (tr : List TraceEvent) : Nat :=
  (tr.filterMap fun e =>
    match e with
    | TraceEvent.call (RemoteCall.createCard c b) => some (c, b)
    | _ => none).length

/-- JavaScript-style whitespace test for `trim`. -/
def charIsWs (ch : Char) : Bool :=
  ch == ' ' || ch == '\t' || ch == '\n' || ch == '\r'

/-- JavaScript `text.trim()`: strip leading and trailing whitespace.
(`String.trim` of the core library is not used because its `Substring`
auxiliaries do not reduce in the kernel.) -/
def jsTrim (s : String) : String :=
  String.mk (((s.toList.dropWhile charIsWs).reverse.dropWhile charIsWs).reverse)

/-- An environment where every call succeeds. -/
def envAllOk : Env := fun n =>
  RemoteResult.ok (if n = 0 then "card1" else if n = 1 then "msg1" else "")

/-! ## Reply dispatch coordinator (`createFeishuReplyDispatcher`) -/

/-- The `renderMode` configuration values. -/
inductive RenderMode where
  | auto | raw | card
deriving DecidableEq, BEq, Repr

/-- The `blockStreamingCoalesce` configuration object (all fields optional,
per the config schema). -/
structure BlockStreamingCoalesceCfg where
  minDelayMs : Option Nat
  maxDelayMs : Option Nat
deriving DecidableEq, Repr

/-- The slice of the resolved Feishu channel configuration the dispatcher
reads. -/
structure FeishuCfgModel where
  blockStreamingCoalesce : Option BlockStreamingCoalesceCfg
  renderMode : Option RenderMode
deriving DecidableEq, Repr

/-- `streamingCoalesce?.minDelayMs ?? 300` computed in
`createFeishuReplyDispatcher`. -/
def resolvedMinUpdateIntervalMs (c : FeishuCfgModel) : Nat :=
  (c.blockStreamingCoalesce.bind (·.minDelayMs)).getD 300

/-- `streamingCoalesce?.maxDelayMs ?? 5000` computed in
`createFeishuReplyDispatcher`. -/
def resolvedMaxUpdateIntervalMs (c : FeishuCfgModel) : Nat :=
  (c.blockStreamingCoalesce.bind (·.maxDelayMs)).getD 5000

/-- `feishuCfg?.renderMode ?? "auto"`. -/
def resolvedRenderMode (c : FeishuCfgModel) : RenderMode :=
  c.renderMode.getD RenderMode.auto

/-- The session created by `onPartialReply`.  The call site is
`new FeishuStream({cfg, chatId, replyToMessageId, runtime,
minUpdateIntervalMs, maxUpdateIntervalMs, rateLimitBackoffMult})`: the
resolved interval values are placed inside the single `ctx` object
argument, but the constructor declares them as the second, third and
fourth positional parameters, so at run time they are ignored and the
positional defaults `MIN_UPDATE_INTERVAL_MS`, `5000` and `2` apply
whatever the configuration says. -/
def dispatcherNewStream (_c : FeishuCfgModel) : StreamState :=
  initialStream MIN_UPDATE_INTERVAL_MS 5000 RATE_LIMIT_BACKOFF_MULTIPLIER

/-- A message sent by the non-streaming fallback path. -/
inductive CoordEvent where
  /-- `sendMarkdownCardFeishu({..., text: chunk})`. -/
  | sendMarkdownCard (chunk : String)
  /-- `sendMessageFeishu({..., text: chunk})`. -/
  | sendText (chunk : String)
deriving DecidableEq, Repr

/-- The external text helpers the fallback path calls: the remark-based
markdown detector `shouldUseCard` (markdown.ts) and the host runtime's
`convertMarkdownTables` / `chunkTextWithMode` (with the resolved chunk
limit and mode baked in).  They are pure text transforms outside the
coordinator, so the model abstracts them as function parameters. -/
structure FallbackHooks where
  shouldUseCard : String → Bool
  convertMarkdownTables : String → String
  chunkTextWithMode : String → List String

/-- `sendFallbackMessage(text)`: pick card vs raw mode from the render
mode, chunk, and send each chunk in order. -/
def sendFallbackMessage (hooks : FallbackHooks) (renderMode : RenderMode)
    (text : String) : List CoordEvent :=
  let useCard := renderMode == RenderMode.card ||
    (renderMode == RenderMode.auto && hooks.shouldUseCard text)
  if useCard then
    (hooks.chunkTextWithMode text).map CoordEvent.sendMarkdownCard
  else
    (hooks.chunkTextWithMode (hooks.convertMarkdownTables text)).map CoordEvent.sendText

/-- The coordinator's mutable state: the active stream (`currentStream`)
and the fallback messages sent so far. -/
structure Coord where
  currentStream : Option StreamState
  fallbackSent : List CoordEvent
deriving DecidableEq, Repr

/-- The `deliver` callback of `createFeishuReplyDispatcher` (the final
reply event): empty/whitespace-only text is ignored; with an active stream
it finalizes and, on failure, falls back; without one it falls back
directly.  In both stream branches `currentStream` is set to null. -/
def deliver (env : Env) (hooks : FallbackHooks) (c : FeishuCfgModel)
    (co : Coord) (text : String) : Coord :=
  if jsTrim text = "" then co
  else
    match co.currentStream with
    | some s =>
      match finalize env text s 0 with
      | (_, success) =>
        if success then { co with currentStream := none }
        else
          { currentStream := none
            fallbackSent := co.fallbackSent ++
              sendFallbackMessage hooks (resolvedRenderMode c) text }
    | none =>
      { co with fallbackSent := co.fallbackSent ++
          sendFallbackMessage hooks (resolvedRenderMode c) text }

/-- The `onPartialReply` handler (streaming enabled): ignore empty text;
create a stream if none is active; if the active stream has a failed
initialization, drop it and return without calling `update`; otherwise
call `update(text)`. -/
def onPartialReply (env : Env) (now : Int) (c : FeishuCfgModel)
    (co : Coord) (text : String) : Coord :=
  if text = "" then co
  else
    let s :=
      match co.currentStream with
      | none => dispatcherNewStream c
      | some s => s
    if hasFailed s then { co with currentStream := none }
    else { co with currentStream := some (update env now text false s) }

/-! ## Concurrency model for initialization single-flight

JavaScript scheduling is single-threaded: an `async` call runs
synchronously until its first suspension point.  For
`FeishuStream.update` on an uninitialized session, that synchronous
prefix performs the `isFinalized` and `lastContent` guards, then either
(a) stores the in-flight promise in `initializationPromise` and issues
the `createCardEntity` request (the HTTP call is initiated before the
first `await` suspends), or (b) if the latch is already occupied, parks
on `await this.initializationPromise`.  For an initialized session the
prefix runs the throttle check and, if not throttled, issues the
`updateCardContent` request before suspending.  `updateStart` is exactly
this synchronous prefix; no remote response is consumed, matching the
claims' "before the first remote response returns" window. -/

/-- What the synchronous prefix of one concurrent `update` call did. -/
inductive StartOutcome where
  | noop
  | joinedLatch
  | startedInit
  | throttled
  | startedContentUpdate
deriving DecidableEq, Repr

/-- Session state plus the `initializationPromise` latch and the number of
callers parked on it. -/
structure ConcState where
  latch : Bool
  awaitingLatch : Nat
  stream : StreamState
deriving DecidableEq, Repr

/-- Synchronous prefix of `FeishuStream.update(content, isFinal)` up to its
first suspension point. -/
def updateStart (now : Int) (content : String) (isFinal : Bool)
    (c : ConcState) : ConcState × StartOutcome :=
  if c.stream.isFinalized then (c, StartOutcome.noop)
  else if content = c.stream.lastContent then (c, StartOutcome.noop)
  else
    match c.stream.cardId with
    | some cid =>
      if !isFinal &&
          now - c.stream.lastUpdateTime < (c.stream.currentMinInterval : Int) then
        (c, StartOutcome.throttled)
      else
        ({ c with stream :=
            { c.stream with
                sequence := c.stream.sequence + 1
                callsMade := c.stream.callsMade + 1
                trace := c.stream.trace ++
                  [TraceEvent.call
                    (RemoteCall.updateContent cid content (c.stream.sequence + 1) true)] } },
          StartOutcome.startedContentUpdate)
    | none =>
      if c.latch then
        ({ c with awaitingLatch := c.awaitingLatch + 1 }, StartOutcome.joinedLatch)
      else
        ({ c with
            latch := true
            stream :=
              { c.stream with
                  callsMade := c.stream.callsMade + 1
                  trace := c.stream.trace ++
                    [TraceEvent.call (RemoteCall.createCard content true)] } },
          StartOutcome.startedInit)

/-- Run the synchronous prefixes of N concurrent `update(text)` calls in
arrival order, before any remote response is delivered. -/
def startAll (now : Int) : List String → ConcState → ConcState × List StartOutcome
  | [], c => (c, [])
  | t :: ts, c =>
    let p := updateStart now t false c
    let q := startAll now ts p.1
    (q.1, p.2 :: q.2)

/-! ## The send-layer markdown body (`createCardEntity`, `updateCardContent`) -/

/-- JavaScript `a || b` on strings: the empty string is the only falsy
string. -/
def jsOrString (a b : String) : String :=
  if a = "" then b else a

/-- The markdown element content built by `createCardEntity`:
`normalizeMarkdownForFeishu(content || "...")`.  The remark-based
`normalizeMarkdownForFeishu` is an external pure text transform,
abstracted as the parameter `normalizeMd`. -/
def createCardEntityMarkdown (normalizeMd : String → String) (content : String) : String :=
  normalizeMd (jsOrString content "...")

/-- The markdown element content built by `updateCardContent`:
`normalizeMarkdownForFeishu(content || "...")`. -/
def updateCardContentMarkdown (normalizeMd : String → String) (content : String) : String :=
  normalizeMd (jsOrString content "...")

/-! ## Fuel irrelevance: the structural fuel is pure scaffolding -/

/-- Any fuel exceeding the length of the remaining retry chain yields the
same result, so `performUpdate`'s fixed fuel `MAX_RETRY_COUNT + 1` is
irrelevant: the recursion is controlled solely by the source's
`isRateLimit && retryCount < MAX_RETRY_COUNT` guard. -/
theorem performUpdateGo_fuel_irrelevant (env : Env) (now : Int) (content : String) :
    ∀ fuel₁ fuel₂ retryCount s,
      MAX_RETRY_COUNT - retryCount < fuel₁ → MAX_RETRY_COUNT - retryCount < fuel₂ →
      performUpdateGo env now content fuel₁ s retryCount =
        performUpdateGo env now content fuel₂ s retryCount := by
  intro fuel₁
  induction fuel₁ with
  | zero => intro fuel₂ r s h1 h2; omega
  | succ f ih =>
    intro fuel₂ r s h1 h2
    cases fuel₂ with
    | zero => omega
    | succ g =>
      simp only [performUpdateGo]
      cases hc : s.cardId with
      | none => rfl
      | some cid =>
        by_cases hf : s.isFinalized = true
        · simp [hf]
        · simp only [hf, if_neg, Bool.false_eq_true, if_false]
          cases hr : env s.callsMade with
          | ok id => rfl
          | err msg =>
            by_cases hrl : (isRateLimitError msg && decide (r < MAX_RETRY_COUNT)) = true
            · simp only [hrl, if_true]
              have hlt : r < MAX_RETRY_COUNT := by
                simpa using (Bool.and_eq_true_iff.mp hrl).2
              exact ih g (r + 1) _ (by omega) (by omega)
            · have hx : (isRateLimitError msg && decide (r < MAX_RETRY_COUNT)) = false := by
                simpa using hrl
              simp only [hx, Bool.false_eq_true, if_false]

/-- Fuel irrelevance for `finalizeGo`, as for `performUpdateGo`. -/
theorem finalizeGo_fuel_irrelevant (env : Env) (content : String) :
    ∀ fuel₁ fuel₂ retryCount s,
      MAX_RETRY_COUNT - retryCount < fuel₁ → MAX_RETRY_COUNT - retryCount < fuel₂ →
      finalizeGo env content fuel₁ s retryCount =
        finalizeGo env content fuel₂ s retryCount := by
  intro fuel₁
  induction fuel₁ with
  | zero => intro fuel₂ r s h1 h2; omega
  | succ f ih =>
    intro fuel₂ r s h1 h2
    cases fuel₂ with
    | zero => omega
    | succ g =>
      simp only [finalizeGo]
      by_cases hf : s.isFinalized = true
      · simp [hf]
      · simp only [hf, Bool.false_eq_true, if_false]
        cases hc : s.cardId with
        | none => rfl
        | some cid =>
          cases hr1 : env s.callsMade with
          | err msg =>
            by_cases hrl : (isRateLimitError msg && decide (r < MAX_RETRY_COUNT)) = true
            · simp only [hrl, if_true]
              have hlt : r < MAX_RETRY_COUNT := by
                simpa using (Bool.and_eq_true_iff.mp hrl).2
              exact ih g (r + 1) _ (by omega) (by omega)
            · have hx : (isRateLimitError msg && decide (r < MAX_RETRY_COUNT)) = false := by
                simpa using hrl
              simp only [hx, Bool.false_eq_true, if_false]
          | ok id1 =>
            cases hr2 : env (s.callsMade + 1) with
            | err msg =>
              by_cases hrl : (isRateLimitError msg && decide (r < MAX_RETRY_COUNT)) = true
              · simp only [hrl, if_true]
                have hlt : r < MAX_RETRY_COUNT := by
                  simpa using (Bool.and_eq_true_iff.mp hrl).2
                exact ih g (r + 1) _ (by omega) (by omega)
              · have hx : (isRateLimitError msg && decide (r < MAX_RETRY_COUNT)) = false := by
                  simpa using hrl
                simp only [hx, Bool.false_eq_true, if_false]
            | ok id2 => rfl

/-! ## Shared concrete objects and state transformers -/

/-- One `updateCardContent` attempt as `performUpdate`/`finalize` issue it:
fresh sequence number, one more remote call, the call recorded. -/
def rlAttempt (cid content : String) (streaming : Bool) (s : StreamState) : StreamState :=
  { s with sequence := s.sequence + 1
           callsMade := s.callsMade + 1
           trace := s.trace ++
             [TraceEvent.call (RemoteCall.updateContent cid content (s.sequence + 1) streaming)] }

/-- The rate-limit bookkeeping of `performUpdate`'s catch block:
`rateLimitHitCount++` and
`currentMinInterval = min(currentMinInterval * backoffMultiplier, maxUpdateInterval)`. -/
def rlBookkeep (s : StreamState) : StreamState :=
  { s with rateLimitHitCount := s.rateLimitHitCount + 1
           currentMinInterval :=
             min (s.currentMinInterval * s.rateLimitBackoffMultiplier) s.maxUpdateInterval }

/-- Record a retry-backoff sleep. -/
def withSleep (ms : Nat) (s : StreamState) : StreamState :=
  { s with trace := s.trace ++ [TraceEvent.sleep ms] }

/-- The `updateCardSettings` call of `finalize` step 2. -/
def settingsAttempt (cid : String) (s : StreamState) : StreamState :=
  { s with callsMade := s.callsMade + 1
           trace := s.trace ++ [TraceEvent.call (updateCardSettingsCall cid false)] }

/-- An environment whose every response is a rate-limited error (contains
the legacy code `"230020"`). -/
def envRateLimited : Env := fun _ => RemoteResult.err "Error: too many requests code=230020"

/-- An environment whose every response is a non-rate-limited error. -/
def envOtherError : Env := fun _ => RemoteResult.err "Error: internal code=500"

/-- A session that completed initialization (card id present). -/
def sWithCard : StreamState :=
  { initialStream 300 5000 2 with
      cardId := some "c0", messageId := some "m0", loggedInitialization := true }

/-! ## C10 -/

/-- C10: for `createCardEntity` and `updateCardContent`, an empty `content`
argument yields the placeholder `"..."` — passed through markdown
normalization — as the markdown body, never the empty string; any other
content is passed through unchanged (`content || "..."`). -/
theorem c10_empty_content_placeholder (normalizeMd : String → String) :
    createCardEntityMarkdown normalizeMd "" = normalizeMd "..." ∧
    updateCardContentMarkdown normalizeMd "" = normalizeMd "..." ∧
    ∀ content, content ≠ "" →
      createCardEntityMarkdown normalizeMd content = normalizeMd content ∧
      updateCardContentMarkdown normalizeMd content = normalizeMd content := by
  refine ⟨rfl, rfl, fun content hc => ?_⟩
  constructor <;>
    simp [createCardEntityMarkdown, updateCardContentMarkdown, jsOrString, hc]

/-- Closed witness for `c10_empty_content_placeholder`. -/
theorem c10_witness :
    createCardEntityMarkdown (fun t => t ++ "\n") "" = "...\n" ∧
    updateCardContentMarkdown (fun t => t ++ "\n") "abc" = "abc\n" := by
  refine ⟨(c10_empty_content_placeholder (fun t => t ++ "\n")).1, ?_⟩
  exact ((c10_empty_content_placeholder (fun t => t ++ "\n")).2.2 "abc" (by decide)).2

/-! ## C8 -/

/-- A configuration with non-default streaming-coalesce intervals. -/
def cfgC8 : FeishuCfgModel :=
  { blockStreamingCoalesce := some { minDelayMs := some 100, maxDelayMs := some 2000 }
    renderMode := none }

/-- C8 (code bug): the dispatcher resolves
`blockStreamingCoalesce.minDelayMs`/`maxDelayMs` (here 100/2000), but the
session it creates starts with `currentMinInterval = 300` and backoff cap
`5000` — the resolved values are passed inside the constructor's single
`ctx` object while the constructor expects them as positional parameters,
so the positional defaults always apply, for every configuration. -/
theorem c8_constructor_ignores_configured_intervals :
    resolvedMinUpdateIntervalMs cfgC8 = 100 ∧
    resolvedMaxUpdateIntervalMs cfgC8 = 2000 ∧
    (dispatcherNewStream cfgC8).currentMinInterval = 300 ∧
    (dispatcherNewStream cfgC8).maxUpdateInterval = 5000 ∧
    ∀ c : FeishuCfgModel,
      dispatcherNewStream c = initialStream MIN_UPDATE_INTERVAL_MS 5000 2 :=
  ⟨rfl, rfl, rfl, rfl, fun _ => rfl⟩

/-! ## C3 -/

/-- C3: `finalize` is idempotent — on an already-finalized session it
returns `true` with the state (hence the remote-call trace) unchanged, and
on a session that was never initialized (`cardId` absent, not finalized)
it returns `false` with the state unchanged. -/
theorem c3_finalize_idempotent (env : Env) (content : String) (retryCount : Nat)
    (s : StreamState) :
    (s.isFinalized = true → finalize env content s retryCount = (s, true)) ∧
    (s.isFinalized = false → s.cardId = none →
      finalize env content s retryCount = (s, false)) := by
  constructor
  · intro h
    simp [finalize, finalizeGo, h]
  · intro h hc
    simp [finalize, finalizeGo, h, hc]

/-- A finalized session. -/
def sFinalizedEx : StreamState := { sWithCard with isFinalized := true }

/-- Closed witness for `c3_finalize_idempotent`. -/
theorem c3_witness :
    finalize envAllOk "done" sFinalizedEx 0 = (sFinalizedEx, true) ∧
    finalize envAllOk "done" (initialStream 300 5000 2) 0 =
      (initialStream 300 5000 2, false) :=
  ⟨(c3_finalize_idempotent envAllOk "done" 0 sFinalizedEx).1 rfl,
   (c3_finalize_idempotent envAllOk "done" 0 (initialStream 300 5000 2)).2 rfl rfl⟩

/-! ## C5 -/

/-- C5: after initialization, a non-final `update` whose elapsed time since
`lastUpdateTime` is below `currentMinInterval` leaves the session state —
including the remote-call trace — untouched (dropped, never queued); a
final update bypasses the throttle and performs the remote content update;
an update whose content equals `lastContent` or that arrives after
finalization also changes nothing. -/
theorem c5_throttle_suppression (env : Env) (now : Int) (content : String)
    (s : StreamState) (cid : String) :
    (s.isFinalized = false → content ≠ s.lastContent → s.cardId = some cid →
      now - s.lastUpdateTime < (s.currentMinInterval : Int) →
      update env now content false s = s) ∧
    (s.isFinalized = false → content ≠ s.lastContent → s.cardId = some cid →
      update env now content true s = (performUpdate env now content s 0).1) ∧
    (content = s.lastContent → ∀ isFinal, update env now content isFinal s = s) ∧
    (s.isFinalized = true → ∀ isFinal, update env now content isFinal s = s) := by
  refine ⟨?_, ?_, ?_, ?_⟩
  · intro h1 h2 hc h4
    simp [update, h1, h2, hc, h4]
  · intro h1 h2 hc
    simp [update, h1, h2, hc]
  · intro h isFinal
    by_cases hf : s.isFinalized = true <;> simp [update, hf, h]
  · intro h isFinal
    simp [update, h]

/-- Closed witness for `c5_throttle_suppression`: a throttled non-final
update is dropped with no trace growth, while the same update with
`isFinal = true` goes through `performUpdate`. -/
theorem c5_witness :
    update envAllOk 100 "ab" false sWithCard = sWithCard ∧
    update envAllOk 100 "ab" true sWithCard =
      (performUpdate envAllOk 100 "ab" sWithCard 0).1 ∧
    update envAllOk 100 "" false sWithCard = sWithCard ∧
    update envAllOk 100 "zz" false sFinalizedEx = sFinalizedEx := by
  refine ⟨?_, ?_, ?_, ?_⟩
  · exact (c5_throttle_suppression envAllOk 100 "ab" sWithCard "c0").1 rfl
      (by decide) rfl (by decide)
  · exact (c5_throttle_suppression envAllOk 100 "ab" sWithCard "c0").2.1 rfl
      (by decide) rfl
  · exact (c5_throttle_suppression envAllOk 100 "" sWithCard "c0").2.2.1 rfl false
  · exact (c5_throttle_suppression envAllOk 100 "zz" sFinalizedEx "c0").2.2.2 rfl false

/-! ## C2 -/

/-- C2: on a final reply whose text is non-empty and not whitespace-only —
with an active session the coordinator finalizes; on success the session
is discarded and no fallback is sent; on failure the session is discarded
and the complete text goes through the fallback path; with no active
session the fallback path runs directly. -/
theorem c2_deliver_finalize_fallback (env : Env) (hooks : FallbackHooks)
    (c : FeishuCfgModel) (co : Coord) (text : String) (h : jsTrim text ≠ "") :
    (co.currentStream = none →
      deliver env hooks c co text =
        { co with fallbackSent := co.fallbackSent ++
            sendFallbackMessage hooks (resolvedRenderMode c) text }) ∧
    (∀ s, co.currentStream = some s → (finalize env text s 0).2 = true →
      deliver env hooks c co text =
        { currentStream := none, fallbackSent := co.fallbackSent }) ∧
    (∀ s, co.currentStream = some s → (finalize env text s 0).2 = false →
      deliver env hooks c co text =
        { currentStream := none
          fallbackSent := co.fallbackSent ++
            sendFallbackMessage hooks (resolvedRenderMode c) text }) := by
  refine ⟨?_, ?_, ?_⟩
  · intro hcs
    simp [deliver, h, hcs]
  · intro s hcs hfin
    rcases hpair : finalize env text s 0 with ⟨s', success⟩
    rw [hpair] at hfin
    simp at hfin
    simp [deliver, h, hcs, hpair, hfin]
  · intro s hcs hfin
    rcases hpair : finalize env text s 0 with ⟨s', success⟩
    rw [hpair] at hfin
    simp at hfin
    simp [deliver, h, hcs, hpair, hfin]

/-- Trivial concrete fallback hooks: never a card, identity table
conversion, a single chunk. -/
def hooksEx : FallbackHooks :=
  { shouldUseCard := fun _ => false
    convertMarkdownTables := fun t => t
    chunkTextWithMode := fun t => [t] }

/-- Closed witness for `c2_deliver_finalize_fallback`: with no active
session the text is sent through the fallback path; with a session whose
finalize fails (never initialized) the text is also sent through the
fallback path and the session is discarded. -/
theorem c2_witness :
    deliver envAllOk hooksEx cfgC8 (Coord.mk none []) "hi" =
      { currentStream := none, fallbackSent := [CoordEvent.sendText "hi"] } ∧
    deliver envAllOk hooksEx cfgC8 (Coord.mk (some (initialStream 300 5000 2)) []) "hi" =
      { currentStream := none, fallbackSent := [CoordEvent.sendText "hi"] } := by
  constructor
  · exact (c2_deliver_finalize_fallback envAllOk hooksEx cfgC8 (Coord.mk none []) "hi"
      (by decide)).1 rfl
  · exact (c2_deliver_finalize_fallback envAllOk hooksEx cfgC8
      (Coord.mk (some (initialStream 300 5000 2)) []) "hi" (by decide)).2.2
      (initialStream 300 5000 2) rfl (by decide)

/-! ## C7 -/

/-- An environment whose first response (the `createCardEntity` call)
fails with a non-rate-limited error and whose later responses succeed. -/
def envC7 : Env := fun n =>
  if n = 0 then RemoteResult.err "Error: internal code=500" else RemoteResult.ok "id1"

/-- The session after a first `update` whose initialization failed at
`createCardEntity`. -/
def c7s1 : StreamState := update envC7 100 "a" false (initialStream 300 5000 2)

/-- The same session after one more `update` call. -/
def c7s2 : StreamState := update envC7 1000 "b" false c7s1

/-- C7 counterexample: at the session layer, initialization failure is not
terminal — after a failed first initialization (`hasFailed` true, one
`createCardEntity` call in the trace), a second `update` call on the very
same session starts a second initialization attempt, issuing a second
`createCardEntity` remote call. -/
theorem c7_counterexample :
    hasFailed c7s1 = true ∧
    createCalls c7s1.trace = 1 ∧
    createCalls c7s2.trace = 2 ∧
    ¬ createCalls c7s2.trace = createCalls c7s1.trace := by
  refine ⟨by decide, by decide, by decide, by decide⟩

/-- C7 amended: terminality of initialization failure is enforced one
layer up — the dispatcher's partial-reply handler checks `hasFailed()`
first and drops a failed session without calling `update` on it, so
through the dispatcher no further initialization attempt or remote call
happens on that session. -/
theorem c7_amended_coordinator_drops_failed (env : Env) (now : Int)
    (c : FeishuCfgModel) (co : Coord) (s : StreamState) (text : String)
    (htext : text ≠ "") (hcs : co.currentStream = some s)
    (hfail : hasFailed s = true) :
    onPartialReply env now c co text = { co with currentStream := none } := by
  simp [onPartialReply, htext, hcs, hfail]

/-- Closed witness for `c7_amended_coordinator_drops_failed`. -/
theorem c7_witness :
    onPartialReply envC7 2000 cfgC8 (Coord.mk (some c7s1) []) "x" =
      { currentStream := none, fallbackSent := [] } :=
  c7_amended_coordinator_drops_failed envC7 2000 cfgC8 (Coord.mk (some c7s1) []) c7s1 "x"
    (by decide) rfl (by decide)

/-! ## C1 -/

/-- C1 counterexample: in the run `update "hi" (final); finalize "hello"`
with every remote call succeeding, the sequence numbers carried by the
remote mutations are `[1, 2, 1]` — the settings update issued during
finalize carries the constant `1` (hardcoded in `updateCardSettings`),
which is not greater than the previously sent values, so the claimed
strict monotonicity over content *and* settings mutations fails. -/
theorem c1_counterexample :
    mutationSeqs
      (runOps envAllOk (initialStream 300 5000 2)
        [SessionOp.upd 1000 "hi" true, SessionOp.fin "hello"]).trace = [1, 2, 1] ∧
    ¬ List.Chain' (· < ·)
      (mutationSeqs
        (runOps envAllOk (initialStream 300 5000 2)
          [SessionOp.upd 1000 "hi" true, SessionOp.fin "hello"]).trace) := by
  refine ⟨by decide, ?_⟩
  intro hchain
  have h12 := hchain
  rw [show mutationSeqs
      (runOps envAllOk (initialStream 300 5000 2)
        [SessionOp.upd 1000 "hi" true, SessionOp.fin "hello"]).trace = [1, 2, 1] from by
    decide] at h12
  simp [List.chain'_cons] at h12

/-! ## C4 -/

/-- A session with a card id, as `finalize` requires. -/
def c4run : StreamState × Bool := finalize envRateLimited "y" sWithCard 0

/-- C4 counterexample: a `finalize` whose four attempts all fail
rate-limited (sequences 1–4 sent, backoff sleeps 1s/2s/4s taken, result
`false`) leaves `rateLimitHitCount = 0` and `currentMinInterval`
unchanged: the backoff bookkeeping claimed for "both update and finalize"
does not happen in `finalize` at all. -/
theorem c4_counterexample :
    c4run.2 = false ∧
    contentSeqs c4run.1.trace = [1, 2, 3, 4] ∧
    sleepsOf c4run.1.trace = [1000, 2000, 4000] ∧
    c4run.1.rateLimitHitCount = 0 ∧
    c4run.1.currentMinInterval = sWithCard.currentMinInterval ∧
    ¬ (0 < c4run.1.rateLimitHitCount ∨
        sWithCard.currentMinInterval < c4run.1.currentMinInterval) := by
  refine ⟨by decide, by decide, by decide, by decide, by decide, by decide⟩

/-! ## C9 -/

/-- Once the `initializationPromise` latch is occupied and the session is
still uninitialized, every further concurrent caller with fresh non-empty
content parks on the latch: no state change beyond the parked-caller
count, in particular no remote call. -/
theorem startAll_parked (now : Int) :
    ∀ (ts : List String) (c : ConcState), c.latch = true → c.stream.cardId = none →
      c.stream.isFinalized = false → c.stream.lastContent = "" →
      (∀ t ∈ ts, t ≠ "") →
      (startAll now ts c).1 = { c with awaitingLatch := c.awaitingLatch + ts.length } ∧
      (startAll now ts c).2 = List.replicate ts.length StartOutcome.joinedLatch := by
  intro ts
  induction ts with
  | nil =>
    intro c h1 h2 h3 h4 h5
    constructor
    · simp [startAll]
    · simp [startAll]
  | cons t ts ih =>
    intro c h1 h2 h3 h4 h5
    have ht : t ≠ "" := h5 t (by simp)
    have hlc : ¬ t = c.stream.lastContent := by rw [h4]; exact ht
    have hstep : updateStart now t false c =
        ({ c with awaitingLatch := c.awaitingLatch + 1 }, StartOutcome.joinedLatch) := by
      simp [updateStart, h3, hlc, h2, h1]
    have hrest := ih { c with awaitingLatch := c.awaitingLatch + 1 }
      h1 h2 h3 h4 (fun x hx => h5 x (by simp [hx]))
    constructor
    · rw [show (startAll now (t :: ts) c).1 =
          (startAll now ts ({ c with awaitingLatch := c.awaitingLatch + 1 })).1 from by
        simp [startAll, hstep]]
      rw [hrest.1]
      have : c.awaitingLatch + 1 + ts.length = c.awaitingLatch + (t :: ts).length := by
        simp; omega
      simp [this]
    · rw [show (startAll now (t :: ts) c).2 =
          StartOutcome.joinedLatch ::
            (startAll now ts ({ c with awaitingLatch := c.awaitingLatch + 1 })).2 from by
        simp [startAll, hstep]]
      rw [hrest.2]
      simp [List.replicate_succ]

/-- C9: N concurrent `update` calls on an uninitialized session, all
arriving before the first remote response returns, make exactly one
`createCardEntity` call: the first caller stores the in-flight latch and
issues the call; every other caller parks on the latch
(`joinedLatch`) instead of starting a second remote card. -/
theorem c9_single_flight (now : Int) (minI maxI mult : Nat) (contents : List String)
    (hne : ∀ t ∈ contents, t ≠ "") (hcons : contents ≠ []) :
    createCalls
      (startAll now contents
        (ConcState.mk false 0 (initialStream minI maxI mult))).1.stream.trace = 1 ∧
    (startAll now contents (ConcState.mk false 0 (initialStream minI maxI mult))).2 =
      StartOutcome.startedInit ::
        List.replicate (contents.length - 1) StartOutcome.joinedLatch ∧
    (startAll now contents (ConcState.mk false 0 (initialStream minI maxI mult))).1.awaitingLatch =
      contents.length - 1 := by
  match contents, hcons with
  | t :: ts, _ =>
    have ht : t ≠ "" := hne t (by simp)
    have hstep : updateStart now t false (ConcState.mk false 0 (initialStream minI maxI mult)) =
        (ConcState.mk true 0
          { initialStream minI maxI mult with
              callsMade := 1
              trace := [TraceEvent.call (RemoteCall.createCard t true)] },
          StartOutcome.startedInit) := by
      simp [updateStart, initialStream, ht]
    have hrest := startAll_parked now ts
      (ConcState.mk true 0
        { initialStream minI maxI mult with
            callsMade := 1
            trace := [TraceEvent.call (RemoteCall.createCard t true)] })
      rfl rfl rfl rfl (fun x hx => hne x (by simp [hx]))
    refine ⟨?_, ?_, ?_⟩
    · rw [show (startAll now (t :: ts)
            (ConcState.mk false 0 (initialStream minI maxI mult))).1 =
          (startAll now ts
            (ConcState.mk true 0
              { initialStream minI maxI mult with
                  callsMade := 1
                  trace := [TraceEvent.call (RemoteCall.createCard t true)] })).1 from by
        simp [startAll, hstep]]
      rw [hrest.1]
      rfl
    · rw [show (startAll now (t :: ts)
            (ConcState.mk false 0 (initialStream minI maxI mult))).2 =
          StartOutcome.startedInit ::
            (startAll now ts
              (ConcState.mk true 0
                { initialStream minI maxI mult with
                    callsMade := 1
                    trace := [TraceEvent.call (RemoteCall.createCard t true)] })).2 from by
        simp [startAll, hstep]]
      rw [hrest.2]
      simp
    · rw [show (startAll now (t :: ts)
            (ConcState.mk false 0 (initialStream minI maxI mult))).1 =
          (startAll now ts
            (ConcState.mk true 0
              { initialStream minI maxI mult with
                  callsMade := 1
                  trace := [TraceEvent.call (RemoteCall.createCard t true)] })).1 from by
        simp [startAll, hstep]]
      rw [hrest.1]
      simp

/-- Closed witness for `c9_single_flight`: three concurrent callers, one
`createCardEntity` call, two parked callers. -/
theorem c9_witness :
    createCalls
      (startAll 0 ["a", "ab", "abc"]
        (ConcState.mk false 0 (initialStream 300 5000 2))).1.stream.trace = 1 ∧
    (startAll 0 ["a", "ab", "abc"]
      (ConcState.mk false 0 (initialStream 300 5000 2))).2 =
      [StartOutcome.startedInit, StartOutcome.joinedLatch, StartOutcome.joinedLatch] := by
  have h := c9_single_flight 0 300 5000 2 ["a", "ab", "abc"] (by decide) (by decide)
  exact ⟨h.1, by rw [h.2.1]; rfl⟩

/-! ## C1: sequence-number invariant machinery -/

/-- Every settings mutation in the trace carries sequence number 1. -/
def settingsSeqsAllOne (tr : List TraceEvent) : Prop :=
  ∀ cid b n, TraceEvent.call (RemoteCall.updateSettings cid b n) ∈ tr → n = 1

/-- Invariant tying a trace to the session's `sequence` counter: the
content-update sequence numbers are strictly increasing and bounded by the
counter, and every settings mutation carries the constant 1. -/
def TraceSeqInv (tr : List TraceEvent) (seq : Nat) : Prop :=
  List.Chain' (· < ·) (contentSeqs tr) ∧
    (∀ n ∈ contentSeqs tr, n ≤ seq) ∧ settingsSeqsAllOne tr

theorem contentSeqs_append (a b : List TraceEvent) :
    contentSeqs (a ++ b) = contentSeqs a ++ contentSeqs b := by
  simp [contentSeqs, List.filterMap_append]

/-- Appending an event that is neither a content update nor a settings
update with a sequence other than 1 preserves the invariant. -/
theorem traceSeqInv_append_inert (tr : List TraceEvent) (seq : Nat) (e : TraceEvent)
    (hc : contentSeqs [e] = [])
    (hs : ∀ cid b n, TraceEvent.call (RemoteCall.updateSettings cid b n) = e → n = 1)
    (h : TraceSeqInv tr seq) : TraceSeqInv (tr ++ [e]) seq := by
  obtain ⟨h1, h2, h3⟩ := h
  refine ⟨?_, ?_, ?_⟩
  · rw [contentSeqs_append, hc, List.append_nil]
    exact h1
  · rw [contentSeqs_append, hc, List.append_nil]
    exact h2
  · intro cid b n hmem
    rcases List.mem_append.mp hmem with hin | hin
    · exact h3 cid b n hin
    · exact hs cid b n (by simpa using hin)

/-- Appending a content update carrying the freshly incremented counter
preserves the invariant at the incremented counter. -/
theorem traceSeqInv_append_content (tr : List TraceEvent) (seq : Nat)
    (cid content : String) (b : Bool) (h : TraceSeqInv tr seq) :
    TraceSeqInv
      (tr ++ [TraceEvent.call (RemoteCall.updateContent cid content (seq + 1) b)])
      (seq + 1) := by
  obtain ⟨h1, h2, h3⟩ := h
  refine ⟨?_, ?_, ?_⟩
  · rw [contentSeqs_append]
    rw [show contentSeqs
        [TraceEvent.call (RemoteCall.updateContent cid content (seq + 1) b)] =
          [seq + 1] from rfl]
    rw [List.chain'_append]
    refine ⟨h1, List.chain'_singleton _, ?_⟩
    intro x hx y hy
    obtain ⟨hne, hxeq⟩ := List.mem_getLast?_eq_getLast hx
    have hxmem : x ∈ contentSeqs tr := hxeq ▸ List.getLast_mem hne
    simp at hy
    have := h2 x hxmem
    omega
  · rw [contentSeqs_append]
    rw [show contentSeqs
        [TraceEvent.call (RemoteCall.updateContent cid content (seq + 1) b)] =
          [seq + 1] from rfl]
    intro n hn
    rcases List.mem_append.mp hn with hin | hin
    · exact Nat.le_succ_of_le (h2 n hin)
    · simp at hin
      omega
  · intro cid' b' n hmem
    rcases List.mem_append.mp hmem with hin | hin
    · exact h3 cid' b' n hin
    · simp at hin

/-- Appending the settings update of `finalize` step 2 preserves the
invariant (it carries the hardcoded sequence 1). -/
theorem traceSeqInv_append_settings (tr : List TraceEvent) (seq : Nat)
    (cid : String) (b : Bool) (h : TraceSeqInv tr seq) :
    TraceSeqInv (tr ++ [TraceEvent.call (updateCardSettingsCall cid b)]) seq := by
  refine traceSeqInv_append_inert tr seq _ rfl ?_ h
  intro cid' b' n heq
  simp [updateCardSettingsCall] at heq
  exact heq.2.2

/-- The invariant on a session state. -/
def SeqInv (s : StreamState) : Prop := TraceSeqInv s.trace s.sequence

theorem performUpdateGo_SeqInv (env : Env) (now : Int) (content : String) :
    ∀ fuel s retryCount, SeqInv s →
      SeqInv (performUpdateGo env now content fuel s retryCount).1 := by
  intro fuel
  induction fuel with
  | zero => intro s r h; exact h
  | succ f ih =>
    intro s r h
    cases hc : s.cardId with
    | none => simpa [performUpdateGo, hc] using h
    | some cid =>
      by_cases hf : s.isFinalized = true
      · simpa [performUpdateGo, hc, hf] using h
      · have hf' : s.isFinalized = false := by simpa using hf
        have h1 : TraceSeqInv
            (s.trace ++
              [TraceEvent.call (RemoteCall.updateContent cid content (s.sequence + 1) true)])
            (s.sequence + 1) :=
          traceSeqInv_append_content s.trace s.sequence cid content true h
        cases hr : env s.callsMade with
        | ok id =>
          simp only [performUpdateGo, hc, hf', Bool.false_eq_true, if_false, hr]
          split
          · exact h1
          · exact h1
        | err msg =>
          by_cases hrl : (isRateLimitError msg && decide (r < MAX_RETRY_COUNT)) = true
          · have hb : isRateLimitError msg = true := (Bool.and_eq_true_iff.mp hrl).1
            have hd : decide (r < MAX_RETRY_COUNT) = true := (Bool.and_eq_true_iff.mp hrl).2
            simp only [performUpdateGo, hc, hf', Bool.false_eq_true, if_false, hr, hb, hd,
              Bool.true_and, eq_self_iff_true, if_true]
            refine ih _ (r + 1) ?_
            exact traceSeqInv_append_inert _ _ _ rfl (by intro _ _ _ hx; cases hx) h1
          · have hx : (isRateLimitError msg && decide (r < MAX_RETRY_COUNT)) = false := by
              simpa using hrl
            simp only [performUpdateGo, hc, hf', Bool.false_eq_true, if_false, hr, hx]
            split
            · exact h1
            · exact h1

theorem finalizeGo_SeqInv (env : Env) (content : String) :
    ∀ fuel s retryCount, SeqInv s →
      SeqInv (finalizeGo env content fuel s retryCount).1 := by
  intro fuel
  induction fuel with
  | zero => intro s r h; exact h
  | succ f ih =>
    intro s r h
    by_cases hf : s.isFinalized = true
    · simpa [finalizeGo, hf] using h
    · have hf' : s.isFinalized = false := by simpa using hf
      cases hc : s.cardId with
      | none => simpa [finalizeGo, hf', hc] using h
      | some cid =>
        have h1 : TraceSeqInv
            (s.trace ++
              [TraceEvent.call (RemoteCall.updateContent cid content (s.sequence + 1) false)])
            (s.sequence + 1) :=
          traceSeqInv_append_content s.trace s.sequence cid content false h
        cases hr1 : env s.callsMade with
        | err msg =>
          by_cases hrl : (isRateLimitError msg && decide (r < MAX_RETRY_COUNT)) = true
          · simp only [finalizeGo, hf', Bool.false_eq_true, if_false, hc, hr1, hrl,
              eq_self_iff_true, if_true]
            refine ih _ (r + 1) ?_
            exact traceSeqInv_append_inert _ _ _ rfl (by intro _ _ _ hx; cases hx) h1
          · have hx : (isRateLimitError msg && decide (r < MAX_RETRY_COUNT)) = false := by
              simpa using hrl
            simp only [finalizeGo, hf', Bool.false_eq_true, if_false, hc, hr1, hx]
            exact h1
        | ok id1 =>
          have h2 : TraceSeqInv
              ((s.trace ++
                  [TraceEvent.call
                    (RemoteCall.updateContent cid content (s.sequence + 1) false)]) ++
                [TraceEvent.call (updateCardSettingsCall cid false)])
              (s.sequence + 1) :=
            traceSeqInv_append_settings _ _ cid false h1
          cases hr2 : env (s.callsMade + 1) with
          | err msg =>
            by_cases hrl : (isRateLimitError msg && decide (r < MAX_RETRY_COUNT)) = true
            · simp only [finalizeGo, hf', Bool.false_eq_true, if_false, hc, hr1, hr2, hrl,
                eq_self_iff_true, if_true]
              refine ih _ (r + 1) ?_
              exact traceSeqInv_append_inert _ _ _ rfl (by intro _ _ _ hx; cases hx) h2
            · have hx : (isRateLimitError msg && decide (r < MAX_RETRY_COUNT)) = false := by
                simpa using hrl
              simp only [finalizeGo, hf', Bool.false_eq_true, if_false, hc, hr1, hr2, hx]
              exact h2
          | ok id2 =>
            simp only [finalizeGo, hf', Bool.false_eq_true, if_false, hc, hr1, hr2]
            exact h2

theorem runInitialization_SeqInv (env : Env) (now : Int) (content : String)
    (s : StreamState) (h : SeqInv s) : SeqInv (runInitialization env now content s) := by
  have h1 : TraceSeqInv
      (s.trace ++ [TraceEvent.call (RemoteCall.createCard content true)]) s.sequence :=
    traceSeqInv_append_inert _ _ _ rfl (by intro _ _ _ hx; cases hx) h
  cases hr1 : env s.callsMade with
  | err msg =>
    simp only [runInitialization, hr1]
    exact h1
  | ok cid =>
    have h2 : TraceSeqInv
        ((s.trace ++ [TraceEvent.call (RemoteCall.createCard content true)]) ++
          [TraceEvent.call (RemoteCall.sendCardMsg cid)]) s.sequence :=
      traceSeqInv_append_inert _ _ _ rfl (by intro _ _ _ hx; cases hx) h1
    cases hr2 : env (s.callsMade + 1) with
    | err msg =>
      simp only [runInitialization, hr1, hr2]
      exact h2
    | ok mid =>
      simp only [runInitialization, hr1, hr2]
      exact h2

theorem performUpdate_SeqInv (env : Env) (now : Int) (content : String)
    (s : StreamState) (retryCount : Nat) (h : SeqInv s) :
    SeqInv (performUpdate env now content s retryCount).1 :=
  performUpdateGo_SeqInv env now content _ s retryCount h

theorem finalize_SeqInv (env : Env) (content : String)
    (s : StreamState) (retryCount : Nat) (h : SeqInv s) :
    SeqInv (finalize env content s retryCount).1 :=
  finalizeGo_SeqInv env content _ s retryCount h

theorem update_SeqInv (env : Env) (now : Int) (content : String) (isFinal : Bool)
    (s : StreamState) (h : SeqInv s) : SeqInv (update env now content isFinal s) := by
  simp only [update]
  split
  · exact h
  · split
    · exact h
    · split
      · have hri := runInitialization_SeqInv env now content s h
        split
        · exact hri
        · exact performUpdate_SeqInv env now content _ 0 hri
      · split
        · exact h
        · exact performUpdate_SeqInv env now content _ 0 h

theorem runOps_SeqInv (env : Env) :
    ∀ (ops : List SessionOp) (s : StreamState), SeqInv s → SeqInv (runOps env s ops) := by
  intro ops
  induction ops with
  | nil => intro s h; exact h
  | cons op rest ih =>
    intro s h
    cases op with
    | upd now c f => exact ih _ (update_SeqInv env now c f s h)
    | fin c => exact ih _ (finalize_SeqInv env c s 0 h)

/-- C1 amended: over any sequence of `update`/`finalize` calls on one
session, the sequence numbers of the remote *content* updates are strictly
increasing (every one exceeds all previously sent), but every *settings*
update — in particular the one issued during finalize — carries the
constant sequence 1, hardcoded in `updateCardSettings`, rather than a
value greater than all previously sent. -/
theorem c1_amended_content_monotone_settings_constant (env : Env)
    (minI maxI mult : Nat) (ops : List SessionOp) :
    List.Pairwise (· < ·)
      (contentSeqs (runOps env (initialStream minI maxI mult) ops).trace) ∧
    settingsSeqsAllOne (runOps env (initialStream minI maxI mult) ops).trace := by
  have h0 : SeqInv (initialStream minI maxI mult) := by
    refine ⟨List.chain'_nil, ?_, ?_⟩
    · intro n hn
      simp [initialStream, contentSeqs] at hn
    · intro cid b n hn
      simp [initialStream] at hn
  have h := runOps_SeqInv env ops (initialStream minI maxI mult) h0
  exact ⟨List.chain'_iff_pairwise.mp h.1, h.2.2⟩

/-- Closed witness for `c1_amended_content_monotone_settings_constant` at
a concrete run. -/
theorem c1_amended_witness :
    List.Pairwise (· < ·)
      (contentSeqs (runOps envAllOk (initialStream 300 5000 2)
        [SessionOp.upd 1000 "hi" true, SessionOp.fin "hello"]).trace) ∧
    settingsSeqsAllOne
      (runOps envAllOk (initialStream 300 5000 2)
        [SessionOp.upd 1000 "hi" true, SessionOp.fin "hello"]).trace :=
  c1_amended_content_monotone_settings_constant envAllOk 300 5000 2
    [SessionOp.upd 1000 "hi" true, SessionOp.fin "hello"]

/-! ## Step characterizations of the retry machinery -/

/-- One rate-limited failure of `performUpdate` with retries remaining:
bookkeep (hit count + interval growth), sleep `BASE_RETRY_DELAY_MS * 2^r`,
and retry the same operation at `retryCount + 1` (the next attempt then
carries a freshly incremented sequence number by construction of
`performUpdate`). -/
theorem performUpdate_rl_retry_step (env : Env) (now : Int) (content : String)
    (s : StreamState) (cid msg : String) (r : Nat)
    (hc : s.cardId = some cid) (hf : s.isFinalized = false)
    (hr : env s.callsMade = RemoteResult.err msg)
    (hrl : isRateLimitError msg = true) (hlt : r < MAX_RETRY_COUNT) :
    performUpdate env now content s r =
      performUpdate env now content
        (withSleep (BASE_RETRY_DELAY_MS * 2 ^ r) (rlBookkeep (rlAttempt cid content true s)))
        (r + 1) := by
  have hd : decide (r < MAX_RETRY_COUNT) = true := by simpa using hlt
  have hstep : performUpdateGo env now content (MAX_RETRY_COUNT + 1) s r =
      performUpdateGo env now content MAX_RETRY_COUNT
        (withSleep (BASE_RETRY_DELAY_MS * 2 ^ r) (rlBookkeep (rlAttempt cid content true s)))
        (r + 1) := by
    simp only [performUpdateGo, hc, hf, Bool.false_eq_true, if_false, hr, hrl, hd,
      Bool.true_and, eq_self_iff_true, if_true, withSleep, rlBookkeep, rlAttempt]
  simp only [performUpdate]
  rw [hstep]
  exact performUpdateGo_fuel_irrelevant env now content MAX_RETRY_COUNT
    (MAX_RETRY_COUNT + 1) (r + 1) _
    (by have h3 : MAX_RETRY_COUNT = 3 := rfl; omega)
    (by have h3 : MAX_RETRY_COUNT = 3 := rfl; omega)

/-- A rate-limited failure of `performUpdate` with retries exhausted:
bookkeeping still applied, no sleep, report failure. -/
theorem performUpdate_rl_exhausted (env : Env) (now : Int) (content : String)
    (s : StreamState) (cid msg : String) (r : Nat)
    (hc : s.cardId = some cid) (hf : s.isFinalized = false)
    (hr : env s.callsMade = RemoteResult.err msg)
    (hrl : isRateLimitError msg = true) (hge : ¬ r < MAX_RETRY_COUNT) :
    performUpdate env now content s r = (rlBookkeep (rlAttempt cid content true s), false) := by
  have hd : decide (r < MAX_RETRY_COUNT) = false := by simpa using hge
  simp only [performUpdate, performUpdateGo, hc, hf, Bool.false_eq_true, if_false, hr, hrl,
    hd, Bool.and_false, eq_self_iff_true, if_true, rlBookkeep, rlAttempt]

/-- A non-rate-limited failure of `performUpdate`: one attempt, no
bookkeeping, no retry, immediate `false`. -/
theorem performUpdate_other_error (env : Env) (now : Int) (content : String)
    (s : StreamState) (cid msg : String) (r : Nat)
    (hc : s.cardId = some cid) (hf : s.isFinalized = false)
    (hr : env s.callsMade = RemoteResult.err msg)
    (hrl : isRateLimitError msg = false) :
    performUpdate env now content s r = (rlAttempt cid content true s, false) := by
  simp only [performUpdate, performUpdateGo, hc, hf, Bool.false_eq_true, if_false, hr, hrl,
    Bool.false_and, rlAttempt]

/-- A successful `performUpdate` attempt: returns `true`, and resets
`currentMinInterval` to `MIN_UPDATE_INTERVAL_MS` and `rateLimitHitCount`
to 0 exactly when the interval had grown above the constant floor. -/
theorem performUpdate_success (env : Env) (now : Int) (content : String)
    (s : StreamState) (cid id : String) (r : Nat)
    (hc : s.cardId = some cid) (hf : s.isFinalized = false)
    (hr : env s.callsMade = RemoteResult.ok id) :
    (performUpdate env now content s r).2 = true ∧
    (performUpdate env now content s r).1.currentMinInterval =
      (if MIN_UPDATE_INTERVAL_MS < s.currentMinInterval then MIN_UPDATE_INTERVAL_MS
       else s.currentMinInterval) ∧
    (performUpdate env now content s r).1.rateLimitHitCount =
      (if MIN_UPDATE_INTERVAL_MS < s.currentMinInterval then 0 else s.rateLimitHitCount) ∧
    (performUpdate env now content s r).1.trace =
      s.trace ++ [TraceEvent.call (RemoteCall.updateContent cid content (s.sequence + 1) true)] ∧
    (performUpdate env now content s r).1.lastContent = content := by
  have hiff : (s.currentMinInterval >
      s.currentMinInterval - (s.currentMinInterval - MIN_UPDATE_INTERVAL_MS)) ↔
      MIN_UPDATE_INTERVAL_MS < s.currentMinInterval := by
    unfold MIN_UPDATE_INTERVAL_MS
    omega
  by_cases hm : MIN_UPDATE_INTERVAL_MS < s.currentMinInterval
  · have hcond := hiff.mpr hm
    simp only [performUpdate, performUpdateGo, hc, hf, Bool.false_eq_true, if_false, hr,
      if_pos hcond, if_pos hm]
    exact ⟨trivial, trivial, trivial, trivial, trivial⟩
  · have hcond : ¬ (s.currentMinInterval >
        s.currentMinInterval - (s.currentMinInterval - MIN_UPDATE_INTERVAL_MS)) :=
      fun hx => hm (hiff.mp hx)
    simp only [performUpdate, performUpdateGo, hc, hf, Bool.false_eq_true, if_false, hr,
      if_neg hcond, if_neg hm]
    exact ⟨trivial, trivial, trivial, trivial, trivial⟩

/-- `finalize` never touches the backoff bookkeeping: `rateLimitHitCount`
and `currentMinInterval` are unchanged on every path. -/
theorem finalizeGo_backoff_fields (env : Env) (content : String) :
    ∀ fuel (s : StreamState) (r : Nat),
      (finalizeGo env content fuel s r).1.rateLimitHitCount = s.rateLimitHitCount ∧
      (finalizeGo env content fuel s r).1.currentMinInterval = s.currentMinInterval := by
  intro fuel
  induction fuel with
  | zero => intro s r; exact ⟨rfl, rfl⟩
  | succ f ih =>
    intro s r
    by_cases hf : s.isFinalized = true
    · simp [finalizeGo, hf]
    · have hf' : s.isFinalized = false := by simpa using hf
      cases hc : s.cardId with
      | none => simp [finalizeGo, hf', hc]
      | some cid =>
        cases hr1 : env s.callsMade with
        | err msg =>
          by_cases hrl : (isRateLimitError msg && decide (r < MAX_RETRY_COUNT)) = true
          · simp only [finalizeGo, hf', Bool.false_eq_true, if_false, hc, hr1, hrl,
              eq_self_iff_true, if_true]
            exact ih _ (r + 1)
          · have hx : (isRateLimitError msg && decide (r < MAX_RETRY_COUNT)) = false := by
              simpa using hrl
            simp only [finalizeGo, hf', Bool.false_eq_true, if_false, hc, hr1, hx]
            exact ⟨trivial, trivial⟩
        | ok id1 =>
          cases hr2 : env (s.callsMade + 1) with
          | err msg =>
            by_cases hrl : (isRateLimitError msg && decide (r < MAX_RETRY_COUNT)) = true
            · simp only [finalizeGo, hf', Bool.false_eq_true, if_false, hc, hr1, hr2, hrl,
                eq_self_iff_true, if_true]
              exact ih _ (r + 1)
            · have hx : (isRateLimitError msg && decide (r < MAX_RETRY_COUNT)) = false := by
                simpa using hrl
              simp only [finalizeGo, hf', Bool.false_eq_true, if_false, hc, hr1, hr2, hx]
              exact ⟨trivial, trivial⟩
          | ok id2 =>
            simp only [finalizeGo, hf', Bool.false_eq_true, if_false, hc, hr1, hr2]
            exact ⟨trivial, trivial⟩

/-- Rate-limited failure of `finalize` step 1 with retries remaining:
sleep `BASE_RETRY_DELAY_MS * 2^r` and rerun the whole `finalize` at
`retryCount + 1` (the rerun sends a freshly incremented sequence). -/
theorem finalize_step1_rl_retry (env : Env) (content : String)
    (s : StreamState) (cid msg : String) (r : Nat)
    (hc : s.cardId = some cid) (hf : s.isFinalized = false)
    (hr1 : env s.callsMade = RemoteResult.err msg)
    (hrl : isRateLimitError msg = true) (hlt : r < MAX_RETRY_COUNT) :
    finalize env content s r =
      finalize env content
        (withSleep (BASE_RETRY_DELAY_MS * 2 ^ r) (rlAttempt cid content false s)) (r + 1) := by
  have hd : decide (r < MAX_RETRY_COUNT) = true := by simpa using hlt
  have hstep : finalizeGo env content (MAX_RETRY_COUNT + 1) s r =
      finalizeGo env content MAX_RETRY_COUNT
        (withSleep (BASE_RETRY_DELAY_MS * 2 ^ r) (rlAttempt cid content false s)) (r + 1) := by
    simp only [finalizeGo, hc, hf, Bool.false_eq_true, if_false, hr1, hrl, hd,
      Bool.true_and, eq_self_iff_true, if_true, withSleep, rlAttempt]
  simp only [finalize]
  rw [hstep]
  exact finalizeGo_fuel_irrelevant env content MAX_RETRY_COUNT (MAX_RETRY_COUNT + 1) (r + 1) _
    (by have h3 : MAX_RETRY_COUNT = 3 := rfl; omega)
    (by have h3 : MAX_RETRY_COUNT = 3 := rfl; omega)

/-- Rate-limited failure of `finalize` step 1 with retries exhausted:
report failure, return `false`, no sleep. -/
theorem finalize_step1_rl_exhausted (env : Env) (content : String)
    (s : StreamState) (cid msg : String) (r : Nat)
    (hc : s.cardId = some cid) (hf : s.isFinalized = false)
    (hr1 : env s.callsMade = RemoteResult.err msg)
    (hrl : isRateLimitError msg = true) (hge : ¬ r < MAX_RETRY_COUNT) :
    finalize env content s r = (rlAttempt cid content false s, false) := by
  have hd : decide (r < MAX_RETRY_COUNT) = false := by simpa using hge
  simp only [finalize, finalizeGo, hc, hf, Bool.false_eq_true, if_false, hr1, hrl, hd,
    Bool.and_false, rlAttempt]

/-- Non-rate-limited failure of `finalize` step 1: immediate `false`, no
retry, no sleep. -/
theorem finalize_step1_other_error (env : Env) (content : String)
    (s : StreamState) (cid msg : String) (r : Nat)
    (hc : s.cardId = some cid) (hf : s.isFinalized = false)
    (hr1 : env s.callsMade = RemoteResult.err msg)
    (hrl : isRateLimitError msg = false) :
    finalize env content s r = (rlAttempt cid content false s, false) := by
  simp only [finalize, finalizeGo, hc, hf, Bool.false_eq_true, if_false, hr1, hrl,
    Bool.false_and, rlAttempt]

/-- Rate-limited failure of `finalize` step 2 (the settings update) with
retries remaining: the shared catch sleeps and reruns the whole
`finalize`. -/
theorem finalize_step2_rl_retry (env : Env) (content : String)
    (s : StreamState) (cid id1 msg : String) (r : Nat)
    (hc : s.cardId = some cid) (hf : s.isFinalized = false)
    (hr1 : env s.callsMade = RemoteResult.ok id1)
    (hr2 : env (s.callsMade + 1) = RemoteResult.err msg)
    (hrl : isRateLimitError msg = true) (hlt : r < MAX_RETRY_COUNT) :
    finalize env content s r =
      finalize env content
        (withSleep (BASE_RETRY_DELAY_MS * 2 ^ r)
          (settingsAttempt cid (rlAttempt cid content false s))) (r + 1) := by
  have hd : decide (r < MAX_RETRY_COUNT) = true := by simpa using hlt
  have hstep : finalizeGo env content (MAX_RETRY_COUNT + 1) s r =
      finalizeGo env content MAX_RETRY_COUNT
        (withSleep (BASE_RETRY_DELAY_MS * 2 ^ r)
          (settingsAttempt cid (rlAttempt cid content false s))) (r + 1) := by
    simp only [finalizeGo, hc, hf, Bool.false_eq_true, if_false, hr1, hr2, hrl, hd,
      Bool.true_and, eq_self_iff_true, if_true, withSleep, settingsAttempt, rlAttempt]
  simp only [finalize]
  rw [hstep]
  exact finalizeGo_fuel_irrelevant env content MAX_RETRY_COUNT (MAX_RETRY_COUNT + 1) (r + 1) _
    (by have h3 : MAX_RETRY_COUNT = 3 := rfl; omega)
    (by have h3 : MAX_RETRY_COUNT = 3 := rfl; omega)

/-! ## C4 amended -/

/-- C4 amended: the backoff bookkeeping belongs to `update`
(`performUpdate`) only — on a rate-limited failure of `performUpdate`,
`rateLimitHitCount` is incremented and `currentMinInterval` grows to
`min(currentMinInterval × backoffMultiplier, maxInterval)` (the `rlBookkeep`
step), both when retrying and when retries are exhausted; on a successful
`performUpdate`, `currentMinInterval` resets to the constant floor
`MIN_UPDATE_INTERVAL_MS` and `rateLimitHitCount` to 0 exactly when the
interval sits above that floor; `finalize` performs no backoff bookkeeping
at all — it leaves `rateLimitHitCount` and `currentMinInterval` unchanged
on every path. -/
theorem c4_amended_backoff_update_only (env : Env) (now : Int) (content : String)
    (s : StreamState) (cid id msg : String) (r : Nat) :
    ((finalize env content s r).1.rateLimitHitCount = s.rateLimitHitCount ∧
      (finalize env content s r).1.currentMinInterval = s.currentMinInterval) ∧
    (s.cardId = some cid → s.isFinalized = false →
      env s.callsMade = RemoteResult.err msg → isRateLimitError msg = true →
      r < MAX_RETRY_COUNT →
      performUpdate env now content s r =
        performUpdate env now content
          (withSleep (BASE_RETRY_DELAY_MS * 2 ^ r)
            (rlBookkeep (rlAttempt cid content true s))) (r + 1)) ∧
    (s.cardId = some cid → s.isFinalized = false →
      env s.callsMade = RemoteResult.err msg → isRateLimitError msg = true →
      ¬ r < MAX_RETRY_COUNT →
      performUpdate env now content s r =
        (rlBookkeep (rlAttempt cid content true s), false)) ∧
    (s.cardId = some cid → s.isFinalized = false →
      env s.callsMade = RemoteResult.ok id →
      (performUpdate env now content s r).2 = true ∧
      (performUpdate env now content s r).1.currentMinInterval =
        (if MIN_UPDATE_INTERVAL_MS < s.currentMinInterval then MIN_UPDATE_INTERVAL_MS
         else s.currentMinInterval) ∧
      (performUpdate env now content s r).1.rateLimitHitCount =
        (if MIN_UPDATE_INTERVAL_MS < s.currentMinInterval then 0
         else s.rateLimitHitCount)) := by
  refine ⟨finalizeGo_backoff_fields env content _ s r, ?_, ?_, ?_⟩
  · intro hc hf hr hrl hlt
    exact performUpdate_rl_retry_step env now content s cid msg r hc hf hr hrl hlt
  · intro hc hf hr hrl hge
    exact performUpdate_rl_exhausted env now content s cid msg r hc hf hr hrl hge
  · intro hc hf hr
    have h := performUpdate_success env now content s cid id r hc hf hr
    exact ⟨h.1, h.2.1, h.2.2.1⟩

/-- Closed witness for `c4_amended_backoff_update_only`: a first
rate-limited `performUpdate` failure bookkeeps and retries after a 1s
sleep, while a full rate-limited `finalize` run leaves the backoff fields
untouched. -/
theorem c4_witness :
    performUpdate envRateLimited 5 "x" sWithCard 0 =
      performUpdate envRateLimited 5 "x"
        (withSleep (BASE_RETRY_DELAY_MS * 2 ^ 0)
          (rlBookkeep (rlAttempt "c0" "x" true sWithCard))) 1 ∧
    (finalize envRateLimited "y" sWithCard 0).1.rateLimitHitCount =
      sWithCard.rateLimitHitCount ∧
    (finalize envRateLimited "y" sWithCard 0).1.currentMinInterval =
      sWithCard.currentMinInterval := by
  have h := c4_amended_backoff_update_only envRateLimited 5 "x" sWithCard "c0" "id"
    "Error: too many requests code=230020" 0
  exact ⟨h.2.1 rfl rfl rfl (by decide) (by decide), h.1.1, h.1.2⟩

/-! ## C6 -/

/-- C6: for `update` (`performUpdate`) and `finalize`, a rate-limited
failure with retries remaining sleeps `BASE_RETRY_DELAY_MS * 2^r`
(1s/2s/4s at r = 0/1/2) and retries the operation at `r + 1`, each rerun
sending a freshly incremented sequence number; after `MAX_RETRY_COUNT`
retries the operation reports failure and returns `false`; a
non-rate-limited failure returns `false` immediately with no retry and no
sleep.  The closed conjuncts exercise a full all-rate-limited run (4
attempts with sequences 1–4, sleeps exactly [1000, 2000, 4000], result
`false`) and a non-rate-limited run (a single attempt, no sleep) for both
operations. -/
theorem c6_retry_policy (env : Env) (now : Int) (content : String)
    (s : StreamState) (cid id1 msg : String) (r : Nat) :
    (s.cardId = some cid → s.isFinalized = false →
      env s.callsMade = RemoteResult.err msg → isRateLimitError msg = true →
      r < MAX_RETRY_COUNT →
      performUpdate env now content s r =
        performUpdate env now content
          (withSleep (BASE_RETRY_DELAY_MS * 2 ^ r)
            (rlBookkeep (rlAttempt cid content true s))) (r + 1)) ∧
    (s.cardId = some cid → s.isFinalized = false →
      env s.callsMade = RemoteResult.err msg → isRateLimitError msg = true →
      ¬ r < MAX_RETRY_COUNT →
      performUpdate env now content s r =
        (rlBookkeep (rlAttempt cid content true s), false)) ∧
    (s.cardId = some cid → s.isFinalized = false →
      env s.callsMade = RemoteResult.err msg → isRateLimitError msg = false →
      performUpdate env now content s r = (rlAttempt cid content true s, false)) ∧
    (s.cardId = some cid → s.isFinalized = false →
      env s.callsMade = RemoteResult.err msg → isRateLimitError msg = true →
      r < MAX_RETRY_COUNT →
      finalize env content s r =
        finalize env content
          (withSleep (BASE_RETRY_DELAY_MS * 2 ^ r) (rlAttempt cid content false s))
          (r + 1)) ∧
    (s.cardId = some cid → s.isFinalized = false →
      env s.callsMade = RemoteResult.err msg → isRateLimitError msg = true →
      ¬ r < MAX_RETRY_COUNT →
      finalize env content s r = (rlAttempt cid content false s, false)) ∧
    (s.cardId = some cid → s.isFinalized = false →
      env s.callsMade = RemoteResult.err msg → isRateLimitError msg = false →
      finalize env content s r = (rlAttempt cid content false s, false)) ∧
    (s.cardId = some cid → s.isFinalized = false →
      env s.callsMade = RemoteResult.ok id1 →
      env (s.callsMade + 1) = RemoteResult.err msg → isRateLimitError msg = true →
      r < MAX_RETRY_COUNT →
      finalize env content s r =
        finalize env content
          (withSleep (BASE_RETRY_DELAY_MS * 2 ^ r)
            (settingsAttempt cid (rlAttempt cid content false s))) (r + 1)) ∧
    (sleepsOf (performUpdate envRateLimited 5 "x" sWithCard 0).1.trace =
        [1000, 2000, 4000] ∧
      contentSeqs (performUpdate envRateLimited 5 "x" sWithCard 0).1.trace =
        [1, 2, 3, 4] ∧
      (performUpdate envRateLimited 5 "x" sWithCard 0).2 = false) ∧
    (sleepsOf (finalize envRateLimited "y" sWithCard 0).1.trace = [1000, 2000, 4000] ∧
      contentSeqs (finalize envRateLimited "y" sWithCard 0).1.trace = [1, 2, 3, 4] ∧
      (finalize envRateLimited "y" sWithCard 0).2 = false) ∧
    (sleepsOf (performUpdate envOtherError 5 "x" sWithCard 0).1.trace = [] ∧
      contentSeqs (performUpdate envOtherError 5 "x" sWithCard 0).1.trace = [1] ∧
      (performUpdate envOtherError 5 "x" sWithCard 0).2 = false) := by
  refine ⟨?_, ?_, ?_, ?_, ?_, ?_, ?_, ?_, ?_, ?_⟩
  · intro hc hf hr hrl hlt
    exact performUpdate_rl_retry_step env now content s cid msg r hc hf hr hrl hlt
  · intro hc hf hr hrl hge
    exact performUpdate_rl_exhausted env now content s cid msg r hc hf hr hrl hge
  · intro hc hf hr hrl
    exact performUpdate_other_error env now content s cid msg r hc hf hr hrl
  · intro hc hf hr hrl hlt
    exact finalize_step1_rl_retry env content s cid msg r hc hf hr hrl hlt
  · intro hc hf hr hrl hge
    exact finalize_step1_rl_exhausted env content s cid msg r hc hf hr hrl hge
  · intro hc hf hr hrl
    exact finalize_step1_other_error env content s cid msg r hc hf hr hrl
  · intro hc hf hr1 hr2 hrl hlt
    exact finalize_step2_rl_retry env content s cid id1 msg r hc hf hr1 hr2 hrl hlt
  · exact ⟨by decide, by decide, by decide⟩
  · exact ⟨by decide, by decide, by decide⟩
  · exact ⟨by decide, by decide, by decide⟩

/-- Closed witness for `c6_retry_policy`: the non-rate-limited failure
case at a concrete session and, from the same theorem, the closed
all-rate-limited schedule. -/
theorem c6_witness :
    performUpdate envOtherError 5 "x" sWithCard 0 =
      (rlAttempt "c0" "x" true sWithCard, false) ∧
    sleepsOf (finalize envRateLimited "y" sWithCard 0).1.trace = [1000, 2000, 4000] := by
  have h := c6_retry_policy envOtherError 5 "x" sWithCard "c0" "id"
    "Error: internal code=500" 0
  have h' := c6_retry_policy envRateLimited 5 "y" sWithCard "c0" "id"
    "Error: too many requests code=230020" 0
  exact ⟨h.2.2.1 rfl rfl rfl (by decide), h'.2.2.2.2.2.2.2.2.1.1⟩

end Feishu
